import Mathlib

/-!
Shallow embedding of the field-descriptor and validation engine in
`pydantic/fields.py` (early pydantic), together with theorems checking the
natural-language specification's claims against it.

Modelling conventions (they apply throughout the file):
* Python runtime values are modelled by the inductive type `Val`; Python `None`
  is `Val.null`, list/tuple/set inputs are `Val.list`, mappings are `Val.dict`
  (an insertion-ordered association list, like a Python dict).
* A Python exception is a value of `Exc`.  The built-in error classes of
  pydantic's `errors` module (not under `src/`, modelled from the spec's error
  vocabulary) are the value-error constructors `listError`, `setError`,
  `tupleError`, `tupleLengthError`; `valueError`/`typeError` stand for plain
  `ValueError`/`TypeError`; `other` stands for any exception outside the
  recognized value-error vocabulary.  `Exc.caught` says whether
  `except (ValueError, TypeError)` catches it.
* Fallible Python code is `Except Exc _`: a `.error` result is an exception
  propagating out of the modelled function.
* `ErrorWrapper(exc, loc=loc, config=...)` (module `error_wrappers`, not under
  `src/`, modelled from the spec: an error object exposing a failure kind and
  the full location path) is `ErrTree.wrapper exc loc`; a Python list of
  collected errors is `ErrTree.list`.  Python truthiness of the `errors` slot
  of a result pair is modelled by `Option ErrTree`: `none` is `None` or an
  empty list (both falsy), `some` is a truthy error value.
* A location is already a path (`Loc`); the tuple-normalisation line
  `loc = loc if isinstance(loc, tuple) else (loc,)` is modelled away.
-/

namespace Pydantic

/-- `ValidatorSignature` enum of `fields.py` (lines 29-33). -/
inductive ValidatorSignature where
  | JUST_VALUE
  | VALUE_KWARGS
  | CLS_JUST_VALUE
  | CLS_VALUE_KWARGS
deriving DecidableEq, Repr

/-- `Shape` enum of `fields.py` (lines 36-41). -/
inductive Shape where
  | SINGLETON
  | LIST
  | SET
  | MAPPING
  | TUPLE
deriving DecidableEq, Repr

/-- Python exceptions relevant to the engine.  `listError`, `setError`,
`tupleError` and `tupleLengthError` model the classes of pydantic's `errors`
module (value errors); `other` models any exception outside the recognized
value-error vocabulary (e.g. `RuntimeError`). -/
inductive Exc where
  | valueError (msg : String)
  | typeError (msg : String)
  | listError
  | setError
  | tupleError
  | tupleLengthError (actual_length expected_length : Nat)
  | other (msg : String)
deriving DecidableEq, Repr

/-- Whether `except (ValueError, TypeError)` catches the exception.  The
dedicated error classes of the `errors` module are `ValueError` subclasses. -/
def Exc.caught : Exc → Bool
  | .other _ => false
  | _ => true

/-- Python runtime values, as far as the engine observes them. -/
inductive Val where
  | null
  | int (n : Int)
  | str (s : String)
  | list (xs : List Val)
  | dict (entries : List (Val × Val))

/-- `v is None`. -/
def Val.isNull : Val → Bool
  | .null => true
  | _ => false

/-- Location path items: a field name, an element index, or a mapping key. -/
inductive LocItem where
  | s (x : String)
  | i (n : Nat)
  | v (x : Val)

/-- A location path from the record root. -/
abbrev Loc := List LocItem

/-- An error report: a single wrapped exception tagged with its location, or a
Python list of collected reports. -/
inductive ErrTree where
  | wrapper (exc : Exc) (loc : Loc)
  | list (items : List ErrTree)

/-- The result pair `(value, errors)` returned by the validation methods;
`none` models a falsy `errors` slot (Python `None` or an empty list). -/
abbrev VRes := Val × Option ErrTree

mutual
/-- Structural equality of values (Python `==` as used by `set`). -/
def Val.beq : Val → Val → Bool
  | .null, .null => true
  | .int a, .int b => a == b
  | .str a, .str b => a == b
  | .list xs, .list ys => Val.beqList xs ys
  | .dict xs, .dict ys => Val.beqPairs xs ys
  | _, _ => false

/-- Elementwise equality of value lists. -/
def Val.beqList : List Val → List Val → Bool
  | [], [] => true
  | x :: xs, y :: ys => Val.beq x y && Val.beqList xs ys
  | _, _ => false

/-- Elementwise equality of entry lists. -/
def Val.beqPairs : List (Val × Val) → List (Val × Val) → Bool
  | [], [] => true
  | (k, v) :: xs, (l, w) :: ys => Val.beq k l && Val.beq v w && Val.beqPairs xs ys
  | _, _ => false
end

/-- Modelled from the spec: `utils.list_like` (module `utils` is not under
`src/`).  Per the spec, LIST/SET/TUPLE validation rejects "non-iterable or
string/mapping inputs (they are not list-like)"; the list-like inputs are the
sequence values. -/
def list_like : Val → Bool
  | .list _ => true
  | _ => false

/-- Modelled from the spec: `validators.dict_validator` (module `validators`
is not under `src/`).  Per the spec, MAPPING validation "rejects
non-mapping-coercible input" with a type error; mapping input yields its
entries in order. -/
def dict_validator : Val → Except Exc (List (Val × Val))
  | .dict entries => .ok entries
  | _ => .error (.typeError "value is not a valid dict")

/-- Modelled from the spec: the decoder behind `Json.validate` (module
`types`, not under `src/`) turns a string-encoded payload into structured
data.  We model a minimal decoder: the literal "null" and integer literals
decode; everything else is a decode failure. -/
def decodeJson (s : String) : Option Val :=
  if s = "null" then some .null
  else match s.toInt? with
    | some n => some (.int n)
    | none => none

/-- Modelled from the spec: `Json.validate` (module `types`, not under
`src/`): a non-string payload is a type error, an undecodable string is a
value error, otherwise the decoded structure is returned. -/
def jsonValidate : Val → Except Exc Val
  | .str s =>
    match decodeJson s with
    | some v => .ok v
    | none => .error (.valueError "Invalid JSON")
  | _ => .error (.typeError "JSON object must be str, bytes or bytearray")

/-- A validator callable.  `not_none`, `int_v`, `str_v` are the built-in
validators of the `validators` module (not under `src/`, modelled from the
spec's built-in coercion chains); `user` is a user-supplied validator carrying
an identity, its declared calling convention and its behaviour. -/
inductive VFunc where
  | not_none
  | int_v
  | str_v
  | user (id : Nat) (sig : ValidatorSignature) (run : Val → Except Exc Val)

/-- Identity of a user validator, used to observe repeated classification. -/
def VFunc.uid : VFunc → Option Nat
  | .user i _ _ => some i
  | _ => none

/-- The identity test `f is not_none_validator` of `_prep_vals`. -/
def VFunc.isNotNone : VFunc → Bool
  | .not_none => true
  | _ => false

/-- Modelled from the spec: `validators.not_none_validator` rejects null
("a validator whose sole purpose is rejecting null"), passing anything else
through. -/
def notNoneRun : Val → Except Exc Val
  | .null => .error (.typeError "None is not an allowed value")
  | v => .ok v

/-- Modelled from the spec: the built-in integer coercion chain entry
(`validators` module, not under `src/`): ints pass, anything else raises as
`int(...)` does — a `ValueError` for a string, a `TypeError` otherwise.  (The
numeric-string parse is modelled as always failing: no claim depends on a
successful string-to-int coercion.) -/
def intRun : Val → Except Exc Val
  | .int n => .ok (.int n)
  | .str _ => .error (.valueError "invalid literal for int")
  | .null => .error (.typeError "int() argument must not be None")
  | _ => .error (.typeError "int() argument has wrong type")

/-- Modelled from the spec: the built-in string coercion chain entry
(`validators` module, not under `src/`). -/
def strRun : Val → Except Exc Val
  | .str s => .ok (.str s)
  | .int n => .ok (.str (toString n))
  | _ => .error (.valueError "str type expected")

/-- Executing a validator callable on a value.  The sibling-values map, the
configuration and the owning descriptor passed as keyword context (and the
class argument of class validators) do not influence any modelled behaviour;
they are folded into the callable. -/
def VFunc.run : VFunc → Val → Except Exc Val
  | .not_none => notNoneRun
  | .int_v => intRun
  | .str_v => strRun
  | .user _ _ r => r

/-- The `Validator` named tuple of `fields.py` (lines 44-49). -/
structure Validator where
  func : VFunc
  pre : Bool
  whole : Bool
  always : Bool
  check_fields : Bool

/-- `_get_validator_signature` (`fields.py` lines 509-535).  The source
classifies a callable by inspecting its declared parameter list and trial
binding; that introspection is not representable, so we model its
deterministic result: a user validator carries its declared convention and the
built-in validators take just the value.  (The `ConfigError` branch for a
callable matching no convention is not modelled: every `VFunc` has a declared
convention.) -/
def getValidatorSignature : VFunc → ValidatorSignature
  | .user _ sig _ => sig
  | _ => .JUST_VALUE

/-- `Field._prep_vals` (`fields.py` lines 347-353): drop validators made
redundant by nullability (`allow_none` and the null-rejecting validator), and
pair each kept validator with its classified signature.  The second component
is the log of callables on which `_get_validator_signature` was invoked: the
source calls it exactly once per kept occurrence. -/
def prepVals (allow_none : Bool) : List VFunc → List (ValidatorSignature × VFunc) × List VFunc
  | [] => ([], [])
  | g :: rest =>
    if allow_none && g.isNotNone then prepVals allow_none rest
    else
      let (ps, log) := prepVals allow_none rest
      ((getValidatorSignature g, g) :: ps, g :: log)

/-- `Field._apply_validators` (`fields.py` lines 477-491): run the steps in
order, threading the value; a step raising a caught exception (`ValueError` /
`TypeError`) stops the chain and becomes one location-tagged error holding the
value as it was before that step; any other exception propagates. -/
def applyValidators (loc : Loc) : List (ValidatorSignature × VFunc) → Val → Except Exc VRes
  | [], v => .ok (v, none)
  | (signature, validator) :: rest, v =>
    let r :=
      match signature with
      | .JUST_VALUE => validator.run v
      | .VALUE_KWARGS => validator.run v
      | .CLS_JUST_VALUE => validator.run v
      | .CLS_VALUE_KWARGS => validator.run v
    match r with
    | .ok w => applyValidators loc rest w
    | .error exc =>
      if exc.caught then .ok (v, some (.wrapper exc loc)) else .error exc

/-- The declared-type language handled by `_populate_sub_fields`
(`fields.py` lines 273-316): plain types, `Union` (with `None` as the
nullable marker), `Tuple`, `List`, `Set`, `Mapping`, and the `JsonWrapper`
marker for string-encoded payloads.  (`Pattern`, handled at line 279 by doing
nothing, behaves like a plain type.) -/
inductive Ty where
  | int
  | str
  | noneTy
  | union (args : List Ty)
  | tuple (args : List Ty)
  | list (elem : Ty)
  | set (elem : Ty)
  | mapping (key val : Ty)
  | json (inner : Ty)

/-- The identity test `type_ is NoneType` (line 289). -/
def Ty.isNone : Ty → Bool
  | .noneTy => true
  | _ => false

/-- Whether `getattr(type_, "__origin__", None)` is non-null: true exactly
for the parameterized `typing` containers. -/
def Ty.hasOrigin : Ty → Bool
  | .union _ => true
  | .tuple _ => true
  | .list _ => true
  | .set _ => true
  | .mapping _ _ => true
  | _ => false

/-- Modelled from the spec: `utils.display_as_type` (module `utils`, not
under `src/`), used only to render sub-field names. -/
def Ty.display : Ty → String
  | .int => "int"
  | .str => "str"
  | .noneTy => "NoneType"
  | .union _ => "Union"
  | .tuple _ => "Tuple"
  | .list _ => "List"
  | .set _ => "Set"
  | .mapping _ _ => "Mapping"
  | .json _ => "Json"

/-- `getattr(self.type_, "validate_always", False)` (line 264).  Modelled
from the spec: none of the modelled declared types demands always-validation,
so the attribute reads false. -/
def Ty.validateAlways : Ty → Bool := fun _ => false

/-- Modelled from the spec: `validators.find_validators` (module
`validators`, not under `src/`): the built-in coercion/validation chain for a
base type.  The chain for a type with no registered chain (or the
configuration-error path for arbitrary types) is not exercised by any claim
and is modelled as empty. -/
def findValidators : Ty → List VFunc
  | .int => [.int_v]
  | .str => [.not_none, .str_v]
  | _ => []

/-- The field descriptor (`Field` of `fields.py`, slots at lines 168-187).
Slots that only serve documentation/aliasing bookkeeping (`alias`,
`has_alias`, `_schema`, `model_config`) are outside the modelled core (the
spec scopes them out).  A `none` / empty-list valued slot models Python
`None` or an empty tuple (both falsy). -/
inductive Field where
  | mk
    (name : String)
    (type_ : Ty)
    (sub_fields : List Field)
    (key_field : Option Field)
    (validators : List (ValidatorSignature × VFunc))
    (whole_pre_validators : List (ValidatorSignature × VFunc))
    (whole_post_validators : List (ValidatorSignature × VFunc))
    (default : Val)
    (required : Bool)
    (validate_always : Bool)
    (allow_none : Bool)
    (shape : Shape)
    (class_validators : List Validator)
    (parse_json : Bool)

def Field.name : Field → String
  | .mk x _ _ _ _ _ _ _ _ _ _ _ _ _ => x

def Field.type_ : Field → Ty
  | .mk _ x _ _ _ _ _ _ _ _ _ _ _ _ => x

def Field.sub_fields : Field → List Field
  | .mk _ _ x _ _ _ _ _ _ _ _ _ _ _ => x

def Field.key_field : Field → Option Field
  | .mk _ _ _ x _ _ _ _ _ _ _ _ _ _ => x

def Field.validators : Field → List (ValidatorSignature × VFunc)
  | .mk _ _ _ _ x _ _ _ _ _ _ _ _ _ => x

def Field.whole_pre_validators : Field → List (ValidatorSignature × VFunc)
  | .mk _ _ _ _ _ x _ _ _ _ _ _ _ _ => x

def Field.whole_post_validators : Field → List (ValidatorSignature × VFunc)
  | .mk _ _ _ _ _ _ x _ _ _ _ _ _ _ => x

def Field.default : Field → Val
  | .mk _ _ _ _ _ _ _ x _ _ _ _ _ _ => x

def Field.required : Field → Bool
  | .mk _ _ _ _ _ _ _ _ x _ _ _ _ _ => x

def Field.validate_always : Field → Bool
  | .mk _ _ _ _ _ _ _ _ _ x _ _ _ _ => x

def Field.allow_none : Field → Bool
  | .mk _ _ _ _ _ _ _ _ _ _ x _ _ _ => x

def Field.shape : Field → Shape
  | .mk _ _ _ _ _ _ _ _ _ _ _ x _ _ => x

def Field.class_validators : Field → List Validator
  | .mk _ _ _ _ _ _ _ _ _ _ _ _ x _ => x

def Field.parse_json : Field → Bool
  | .mk _ _ _ _ _ _ _ _ _ _ _ _ _ x => x

lemma Field.sizeOf_sub_fields_lt (f : Field) : sizeOf f.sub_fields < sizeOf f := by
  cases f with
  | mk a b c d e g h i j k l m n o =>
    simp only [Field.sub_fields, Field.mk.sizeOf_spec]
    omega

lemma Field.sizeOf_key_field_lt (f k : Field) (h : f.key_field = some k) :
    sizeOf k < sizeOf f := by
  cases f with
  | mk a b c d e g h2 i j l m n o p =>
    simp only [Field.key_field] at h
    subst h
    simp only [Field.mk.sizeOf_spec, Option.some.sizeOf_spec]
    omega

/-- The elements of a list-like value. -/
def Val.elems : Val → List Val
  | .list xs => xs
  | _ => []

/-- The conversion `v = set(v)` (`fields.py` line 381): Python's `set`
deduplicates by equality; `Val` has no set constructor, so the conversion is
modelled as first-occurrence deduplication of the validated element list. -/
def setConvert : Val → Val
  | .list xs =>
    .list (xs.foldl (fun acc x => if acc.any (fun y => Val.beq y x) then acc else acc ++ [x]) [])
  | v => v

/-- `Field._validate_json` (`fields.py` lines 387-391): decode, catching
`ValueError`/`TypeError` into one location-tagged error. -/
def Field.validateJson (f : Field) (v : Val) (loc : Loc) : Except Exc VRes :=
  match jsonValidate v with
  | .ok w => .ok (w, none)
  | .error exc =>
    if exc.caught then .ok (v, some (.wrapper exc loc)) else .error exc

mutual
/-- `Field.validate` (`fields.py` lines 355-385): nullable short-circuit, JSON
decoding, whole-pre validators, shape dispatch, whole-post validators. -/
def Field.validate (f : Field) (v : Val) (loc : Loc) : Except Exc VRes :=
  if f.allow_none && v.isNull then .ok (.null, none)
  else
    match (if f.parse_json then f.validateJson v loc else .ok (v, none)) with
    | .error exc => .error exc
    | .ok (v1, some e) => .ok (v1, some e)
    | .ok (v1, none) =>
      match (if f.whole_pre_validators.isEmpty then .ok (v1, none)
             else applyValidators loc f.whole_pre_validators v1) with
      | .error exc => .error exc
      | .ok (v2, some e) => .ok (v2, some e)
      | .ok (v2, none) =>
        match (if f.shape = Shape.SINGLETON then f.validateSingleton v2 loc
               else if f.shape = Shape.MAPPING then f.validateMapping v2 loc
               else if f.shape = Shape.TUPLE then f.validateTuple v2 loc
               else
                 match f.validateListSet v2 loc with
                 | .error exc => .error exc
                 | .ok (w, es) =>
                   if es.isNone ∧ f.shape = Shape.SET then .ok (setConvert w, es)
                   else .ok (w, es)) with
        | .error exc => .error exc
        | .ok (v3, some e) => .ok (v3, some e)
        | .ok (v3, none) =>
          if f.whole_post_validators.isEmpty then .ok (v3, none)
          else applyValidators loc f.whole_post_validators v3

termination_by (sizeOf f, 4, 0)
decreasing_by
  all_goals simp_wf
  all_goals first
    | (apply Prod.Lex.left
       first
         | exact Field.sizeOf_sub_fields_lt _
         | exact Field.sizeOf_key_field_lt _ _ (by assumption)
         | omega
         | (simp only [List.cons.sizeOf_spec]; omega))
    | (apply Prod.Lex.right
       first
         | (apply Prod.Lex.left; omega)
         | (apply Prod.Lex.right; omega))

/-- `Field._validate_singleton` (`fields.py` lines 464-475): with sub-fields,
try the alternatives in order; without, run the element pipeline. -/
def Field.validateSingleton (f : Field) (v : Val) (loc : Loc) : Except Exc VRes :=
  if f.sub_fields.isEmpty then applyValidators loc f.validators v
  else
    match validateAlts f.sub_fields v loc with
    | .error exc => .error exc
    | .ok (some value, _) => .ok (value, none)
    | .ok (none, es) => .ok (v, if es.isEmpty then none else some (.list es))

termination_by (sizeOf f, 1, 0)
decreasing_by
  all_goals simp_wf
  all_goals first
    | (apply Prod.Lex.left
       first
         | exact Field.sizeOf_sub_fields_lt _
         | exact Field.sizeOf_key_field_lt _ _ (by assumption)
         | omega
         | (simp only [List.cons.sizeOf_spec]; omega))
    | (apply Prod.Lex.right
       first
         | (apply Prod.Lex.left; omega)
         | (apply Prod.Lex.right; omega))

/-- The alternative loop of `_validate_singleton` (lines 466-473): first
success wins and is returned as-is; otherwise every alternative's error report
is collected in declaration order. -/
def validateAlts (subs : List Field) (v : Val) (loc : Loc) :
    Except Exc (Option Val × List ErrTree) :=
  match subs with
  | [] => .ok (none, [])
  | field :: rest =>
    match field.validate v loc with
    | .error exc => .error exc
    | .ok (value, none) => .ok (some value, [])
    | .ok (_, some e) =>
      match validateAlts rest v loc with
      | .error exc => .error exc
      | .ok (some value, _) => .ok (some value, [])
      | .ok (none, es) => .ok (none, e :: es)

termination_by (sizeOf subs, 2, 0)
decreasing_by
  all_goals simp_wf
  all_goals first
    | (apply Prod.Lex.left
       first
         | exact Field.sizeOf_sub_fields_lt _
         | exact Field.sizeOf_key_field_lt _ _ (by assumption)
         | omega
         | (simp only [List.cons.sizeOf_spec]; omega))
    | (apply Prod.Lex.right
       first
         | (apply Prod.Lex.left; omega)
         | (apply Prod.Lex.right; omega))

/-- `Field._validate_list_set` (`fields.py` lines 393-410): reject non
list-like input with one shape-specific error, otherwise validate each element
at its index, returning either all elements or the original input with the
collected errors. -/
def Field.validateListSet (f : Field) (v : Val) (loc : Loc) : Except Exc VRes :=
  if list_like v then
    match validateElems f v.elems loc 0 with
    | .error exc => .error exc
    | .ok (result, errors) =>
      if errors.isEmpty then .ok (.list result, none)
      else .ok (v, some (.list errors))
  else
    .ok (v, some (.wrapper (if f.shape = Shape.LIST then Exc.listError else Exc.setError) loc))

termination_by (sizeOf f, 3, 0)
decreasing_by
  all_goals simp_wf
  all_goals first
    | (apply Prod.Lex.left
       first
         | exact Field.sizeOf_sub_fields_lt _
         | exact Field.sizeOf_key_field_lt _ _ (by assumption)
         | omega
         | (simp only [List.cons.sizeOf_spec]; omega))
    | (apply Prod.Lex.right
       first
         | (apply Prod.Lex.left; omega)
         | (apply Prod.Lex.right; omega))

/-- The element loop of `_validate_list_set` (lines 398-405): each element is
validated by the element pipeline at `loc + index`; failures collect in index
order, successes collect in order. -/
def validateElems (f : Field) (elems : List Val) (loc : Loc) (i : Nat) :
    Except Exc (List Val × List ErrTree) :=
  match elems with
  | [] => .ok ([], [])
  | e :: rest =>
    match f.validateSingleton e (loc ++ [.i i]) with
    | .error exc => .error exc
    | .ok (r, err) =>
      match validateElems f rest loc (i + 1) with
      | .error exc => .error exc
      | .ok (rs, es) =>
        match err with
        | none => .ok (r :: rs, es)
        | some e2 => .ok (rs, e2 :: es)

termination_by (sizeOf f, 2, elems.length)
decreasing_by
  all_goals simp_wf
  all_goals first
    | (apply Prod.Lex.left
       first
         | exact Field.sizeOf_sub_fields_lt _
         | exact Field.sizeOf_key_field_lt _ _ (by assumption)
         | omega
         | (simp only [List.cons.sizeOf_spec]; omega))
    | (apply Prod.Lex.right
       first
         | (apply Prod.Lex.left; omega)
         | (apply Prod.Lex.right; omega))

/-- `Field._validate_tuple` (`fields.py` lines 412-436): reject non list-like
input with one tuple error, reject an arity mismatch with exactly one
length error carrying actual and expected lengths, otherwise validate each
position against its positional sub-field. -/
def Field.validateTuple (f : Field) (v : Val) (loc : Loc) : Except Exc VRes :=
  if list_like v then
    if v.elems.length ≠ f.sub_fields.length then
      .ok (v, some (.wrapper (.tupleLengthError v.elems.length f.sub_fields.length) loc))
    else
      match validateTupleElems v.elems f.sub_fields loc 0 with
      | .error exc => .error exc
      | .ok (result, errors) =>
        if errors.isEmpty then .ok (.list result, none)
        else .ok (v, some (.list errors))
  else .ok (v, some (.wrapper .tupleError loc))

termination_by (sizeOf f, 3, 0)
decreasing_by
  all_goals simp_wf
  all_goals first
    | (apply Prod.Lex.left
       first
         | exact Field.sizeOf_sub_fields_lt _
         | exact Field.sizeOf_key_field_lt _ _ (by assumption)
         | omega
         | (simp only [List.cons.sizeOf_spec]; omega))
    | (apply Prod.Lex.right
       first
         | (apply Prod.Lex.left; omega)
         | (apply Prod.Lex.right; omega))

/-- The positional loop of `_validate_tuple` (lines 424-431): `zip` of input
elements with positional sub-fields. -/
def validateTupleElems (vs : List Val) (flds : List Field) (loc : Loc) (i : Nat) :
    Except Exc (List Val × List ErrTree) :=
  match vs, flds with
  | e :: vrest, field :: frest =>
    match field.validate e (loc ++ [.i i]) with
    | .error exc => .error exc
    | .ok (r, err) =>
      match validateTupleElems vrest frest loc (i + 1) with
      | .error exc => .error exc
      | .ok (rs, es) =>
        match err with
        | none => .ok (r :: rs, es)
        | some e2 => .ok (rs, e2 :: es)
  | _, _ => .ok ([], [])

termination_by (sizeOf flds, 0, 0)
decreasing_by
  all_goals simp_wf
  all_goals first
    | (apply Prod.Lex.left
       first
         | exact Field.sizeOf_sub_fields_lt _
         | exact Field.sizeOf_key_field_lt _ _ (by assumption)
         | omega
         | (simp only [List.cons.sizeOf_spec]; omega))
    | (apply Prod.Lex.right
       first
         | (apply Prod.Lex.left; omega)
         | (apply Prod.Lex.right; omega))

/-- `Field._validate_mapping` (`fields.py` lines 438-462): coerce to a
mapping (one type error on failure), then validate every entry, assembling the
successes and collecting one error per failed entry. -/
def Field.validateMapping (f : Field) (v : Val) (loc : Loc) : Except Exc VRes :=
  match dict_validator v with
  | .error exc =>
    match exc with
    | .typeError m => .ok (v, some (.wrapper (.typeError m) loc))
    | e => .error e
  | .ok entries =>
    match validateMapEntries f entries loc with
    | .error exc => .error exc
    | .ok (result, errors) =>
      if errors.isEmpty then .ok (.dict result, none)
      else .ok (v, some (.list errors))

termination_by (sizeOf f, 3, 0)
decreasing_by
  all_goals simp_wf
  all_goals first
    | (apply Prod.Lex.left
       first
         | exact Field.sizeOf_sub_fields_lt _
         | exact Field.sizeOf_key_field_lt _ _ (by assumption)
         | omega
         | (simp only [List.cons.sizeOf_spec]; omega))
    | (apply Prod.Lex.right
       first
         | (apply Prod.Lex.left; omega)
         | (apply Prod.Lex.right; omega))

/-- The entry loop of `_validate_mapping` (lines 444-458): the key is
validated by the key descriptor at `loc + "__key__"`; on key failure the value
is never validated and the entry is skipped; otherwise the value runs the
element pipeline at `loc + key`; only fully successful entries reach the
assembled result. -/
def validateMapEntries (f : Field) (entries : List (Val × Val)) (loc : Loc) :
    Except Exc (List (Val × Val) × List ErrTree) :=
  match entries with
  | [] => .ok ([], [])
  | (k, v) :: rest =>
    match hkf : f.key_field with
    | none => .error (.other "AttributeError: NoneType object has no attribute validate")
    | some key_field =>
      match key_field.validate k (loc ++ [.s "__key__"]) with
      | .error exc => .error exc
      | .ok (_, some e) =>
        match validateMapEntries f rest loc with
        | .error exc => .error exc
        | .ok (rs, es) => .ok (rs, e :: es)
      | .ok (key_result, none) =>
        match f.validateSingleton v (loc ++ [.v k]) with
        | .error exc => .error exc
        | .ok (_, some e) =>
          match validateMapEntries f rest loc with
          | .error exc => .error exc
          | .ok (rs, es) => .ok (rs, e :: es)
        | .ok (value_result, none) =>
          match validateMapEntries f rest loc with
          | .error exc => .error exc
          | .ok (rs, es) => .ok ((key_result, value_result) :: rs, es)
termination_by (sizeOf f, 2, entries.length)
decreasing_by
  all_goals simp_wf
  all_goals first
    | (apply Prod.Lex.left
       first
         | exact Field.sizeOf_sub_fields_lt _
         | exact Field.sizeOf_key_field_lt _ _ (by assumption)
         | omega
         | (simp only [List.cons.sizeOf_spec]; omega))
    | (apply Prod.Lex.right
       first
         | (apply Prod.Lex.left; omega)
         | (apply Prod.Lex.right; omega))

end


lemma sizeOf_filter_le (p : Ty → Bool) (l : List Ty) : sizeOf (l.filter p) ≤ sizeOf l := by
  induction l with
  | nil => simp [List.filter]
  | cons a l ih =>
    by_cases h : p a <;>
      simp only [List.filter, h, List.cons.sizeOf_spec] <;> omega

/-- `Field._populate_validators` (`fields.py` lines 329-345) together with
the final slot assembly of construction: for a descriptor without sub-fields
the element pipeline is user pre hooks, then the built-in chain of the
resolved base type, then user post hooks, all passed through `_prep_vals`;
whole validators are split by pre/post.  (None of the modelled types carries
a custom `get_validators` attribute, so the built-in chain always comes from
`find_validators`.)  The returned log concatenates, in execution order, the
callables classified by `_get_validator_signature`. -/
def assembleField (name : String) (type_ : Ty) (class_validators : List Validator)
    (default : Val) (required : Bool) (va : Bool) (allow_none : Bool) (shape : Shape)
    (parse_json : Bool) (subs : List Field) (key : Option Field) (slog : List VFunc) :
    Field × List VFunc :=
  let elemFuncs :=
    if subs.isEmpty then
      (class_validators.filter (fun v => !v.whole && v.pre)).map Validator.func
        ++ findValidators type_
        ++ (class_validators.filter (fun v => !v.whole && !v.pre)).map Validator.func
    else []
  let p1 := prepVals allow_none elemFuncs
  let p2 :=
    if class_validators.isEmpty then ([], [])
    else prepVals allow_none ((class_validators.filter (fun v => v.whole && v.pre)).map Validator.func)
  let p3 :=
    if class_validators.isEmpty then ([], [])
    else prepVals allow_none ((class_validators.filter (fun v => v.whole && !v.pre)).map Validator.func)
  (Field.mk name type_ subs key p1.1 p2.1 p3.1 default required va allow_none shape
    class_validators parse_json,
   slog ++ p1.2 ++ p2.2 ++ p3.2)

mutual
/-- Construction of a descriptor: `Field.__init__` (lines 189-221) ending in
`prepare` (lines 256-271).  `prepare` computes `validate_always` from the
type and the always-flagged class validators, then infers nullability: a
non-required field with a null default and no always-validation becomes
`allow_none`; then sub-fields and validators are populated.  The slots that
only serve aliasing/documentation are outside the modelled core.  The second
component is the log of `_get_validator_signature` calls made during
construction, in order. -/
def buildField (name : String) (ty : Ty) (class_validators : List Validator)
    (default : Val) (required : Bool) (allow_none : Bool) : Field × List VFunc :=
  let va := ty.validateAlways || class_validators.any (fun v => v.always)
  let an1 := if required = false ∧ va = false ∧ default.isNull = true then true else allow_none
  match ty with
  | .json inner => buildFieldCore name inner class_validators default required va an1 true
  | t => buildFieldCore name t class_validators default required va an1 false
termination_by (sizeOf ty, 1)
decreasing_by
  all_goals simp_wf
  all_goals first
    | (apply Prod.Lex.left
       first
         | omega
         | (exact Nat.lt_of_le_of_lt (sizeOf_filter_le _ _) (by omega))
         | (simp only [List.cons.sizeOf_spec]; omega)
         | (simp; omega))
    | (apply Prod.Lex.right; omega)


/-- `Field._populate_sub_fields` (lines 273-316) after the `JsonWrapper`
unwrap: dispatch on the origin of the declared type.  A `Union` strips null
alternatives (setting `allow_none`, clearing `required`) and creates one
sub-field per remaining alternative; a `Tuple` creates one positional
sub-field per argument; `List`/`Set`/`Mapping` retarget the element (or
value) type, `Mapping` additionally building the key descriptor, and create a
single sub-field when the element type is itself parameterized.  Sub-fields
are created with the parent's class validators, default, and the
required/nullable flags as they stand at creation time (`_create_sub_type`,
lines 318-327). -/
def buildFieldCore (name : String) (ty : Ty) (class_validators : List Validator)
    (default : Val) (required : Bool) (va : Bool) (an : Bool) (parse_json : Bool) :
    Field × List VFunc :=
  match ty with
  | .union args =>
    let an2 := an || args.any Ty.isNone
    let req2 := if args.any Ty.isNone then false else required
    let r := buildSubs (fun t => name ++ "_" ++ t.display)
      (args.filter (fun t => !t.isNone)) class_validators default req2 an2
    assembleField name (.union args) class_validators default req2 va an2 Shape.SINGLETON
      parse_json r.1 none r.2
  | .tuple args =>
    let r := buildSubsIdx name args class_validators default required an 0
    assembleField name (.tuple args) class_validators default required va an Shape.TUPLE
      parse_json r.1 none r.2
  | .list elem =>
    if elem.hasOrigin then
      let r := buildField ("_" ++ name) elem class_validators default required an
      assembleField name elem class_validators default required va an Shape.LIST
        parse_json [r.1] none r.2
    else
      assembleField name elem class_validators default required va an Shape.LIST
        parse_json [] none []
  | .set elem =>
    if elem.hasOrigin then
      let r := buildField ("_" ++ name) elem class_validators default required an
      assembleField name elem class_validators default required va an Shape.SET
        parse_json [r.1] none r.2
    else
      assembleField name elem class_validators default required va an Shape.SET
        parse_json [] none []
  | .mapping keyTy valTy =>
    let rk := buildField ("key_" ++ name) keyTy class_validators default required an
    if valTy.hasOrigin then
      let rv := buildField ("_" ++ name) valTy class_validators default required an
      assembleField name valTy class_validators default required va an Shape.MAPPING
        parse_json [rv.1] (some rk.1) (rk.2 ++ rv.2)
    else
      assembleField name valTy class_validators default required va an Shape.MAPPING
        parse_json [] (some rk.1) rk.2
  | t =>
    assembleField name t class_validators default required va an Shape.SINGLETON
      parse_json [] none []
termination_by (sizeOf ty, 0)
decreasing_by
  all_goals simp_wf
  all_goals first
    | (apply Prod.Lex.left
       first
         | omega
         | (exact Nat.lt_of_le_of_lt (sizeOf_filter_le _ _) (by omega))
         | (simp only [List.cons.sizeOf_spec]; omega)
         | (simp; omega))
    | (apply Prod.Lex.right; omega)


/-- The sub-field creation loop of the `Union` branch (line 294). -/
def buildSubs (nameOf : Ty → String) (ts : List Ty) (class_validators : List Validator)
    (default : Val) (required : Bool) (allow_none : Bool) : List Field × List VFunc :=
  match ts with
  | [] => ([], [])
  | t :: rest =>
    let r1 := buildField (nameOf t) t class_validators default required allow_none
    let r2 := buildSubs nameOf rest class_validators default required allow_none
    (r1.1 :: r2.1, r1.2 ++ r2.2)
termination_by (sizeOf ts, 0)
decreasing_by
  all_goals simp_wf
  all_goals first
    | (apply Prod.Lex.left
       first
         | omega
         | (exact Nat.lt_of_le_of_lt (sizeOf_filter_le _ _) (by omega))
         | (simp only [List.cons.sizeOf_spec]; omega)
         | (simp; omega))
    | (apply Prod.Lex.right; omega)


/-- The positional sub-field creation loop of the `Tuple` branch (line 299). -/
def buildSubsIdx (name : String) (ts : List Ty) (class_validators : List Validator)
    (default : Val) (required : Bool) (allow_none : Bool) (i : Nat) : List Field × List VFunc :=
  match ts with
  | [] => ([], [])
  | t :: rest =>
    let r1 := buildField (name ++ "_" ++ toString i) t class_validators default required allow_none
    let r2 := buildSubsIdx name rest class_validators default required allow_none (i + 1)
    (r1.1 :: r2.1, r1.2 ++ r2.2)
termination_by (sizeOf ts, 0)
decreasing_by
  all_goals simp_wf
  all_goals first
    | (apply Prod.Lex.left
       first
         | omega
         | (exact Nat.lt_of_le_of_lt (sizeOf_filter_le _ _) (by omega))
         | (simp only [List.cons.sizeOf_spec]; omega)
         | (simp; omega))
    | (apply Prod.Lex.right; omega)

end

/-- A built descriptor (first component of `buildField`). -/
def mkField (name : String) (ty : Ty) (class_validators : List Validator)
    (default : Val) (required : Bool) (allow_none : Bool) : Field :=
  (buildField name ty class_validators default required allow_none).1


/-- Whether the value is a Python mapping. -/
def Val.isDict : Val → Bool
  | .dict _ => true
  | _ => false

lemma validate_null_of_allow_none (f : Field) (loc : Loc) (h : f.allow_none = true) :
    f.validate Val.null loc = .ok (Val.null, none) := by
  unfold Field.validate
  simp [h, Val.isNull]

lemma applyValidators_cons (loc : Loc) (sig : ValidatorSignature) (g : VFunc)
    (rest : List (ValidatorSignature × VFunc)) (v : Val) :
    applyValidators loc ((sig, g) :: rest) v =
      match g.run v with
      | .ok w => applyValidators loc rest w
      | .error exc => if exc.caught then .ok (v, some (.wrapper exc loc)) else .error exc := by
  cases sig <;> rfl

lemma applyValidators_append (loc : Loc) (xs ys : List (ValidatorSignature × VFunc)) (v : Val) :
    applyValidators loc (xs ++ ys) v =
      match applyValidators loc xs v with
      | .ok (w, none) => applyValidators loc ys w
      | r => r := by
  induction xs generalizing v with
  | nil => simp [applyValidators]
  | cons p rest ih =>
    obtain ⟨sig, g⟩ := p
    rw [List.cons_append, applyValidators_cons, applyValidators_cons]
    cases g.run v with
    | ok w => exact ih w
    | error exc => cases h : exc.caught <;> simp [h]


/-- C1: for every descriptor with `allow_none` (nullable) set, `validate` on a
null input returns `(null, none)` immediately.  The descriptor is arbitrary:
its JSON flag, whole-pre validators, element pipeline, sub-fields and
whole-post validators are unconstrained (they may even be validators that
throw), so none of those steps can have executed (`fields.py` lines
355-357). -/
theorem c1_nullable_short_circuit (f : Field) (loc : Loc) (h : f.allow_none = true) :
    f.validate Val.null loc = .ok (Val.null, none) :=
  validate_null_of_allow_none f loc h

/-- A validator whose execution would be observable: it always raises an
exception outside the value-error vocabulary. -/
def poisonStep : ValidatorSignature × VFunc :=
  (ValidatorSignature.JUST_VALUE, .user 99 .JUST_VALUE (fun _ => .error (.other "boom")))

/-- A nullable descriptor whose JSON step and every validator slot would
throw if executed. -/
def c1Field : Field :=
  Field.mk "w" Ty.int [] none [poisonStep] [poisonStep] [poisonStep]
    Val.null false false true Shape.SINGLETON [] true

theorem c1_nullable_short_circuit_witness :
    c1Field.allow_none = true ∧ c1Field.validate Val.null [] = .ok (Val.null, none) :=
  ⟨rfl, c1_nullable_short_circuit c1Field [] rfl⟩

lemma assembleField_allow_none (name : String) (type_ : Ty) (cvs : List Validator)
    (default : Val) (required va an : Bool) (shape : Shape) (pj : Bool)
    (subs : List Field) (key : Option Field) (slog : List VFunc) :
    (assembleField name type_ cvs default required va an shape pj subs key slog).1.allow_none = an :=
  rfl

lemma buildFieldCore_allow_none (name : String) (ty : Ty) (cvs : List Validator)
    (default : Val) (required va an pj : Bool) (h : an = true) :
    (buildFieldCore name ty cvs default required va an pj).1.allow_none = true := by
  cases ty <;> simp only [buildFieldCore] <;> (try split) <;>
    simp [assembleField_allow_none, h]

lemma buildField_allow_none_inferred (name : String) (ty : Ty) (cvs : List Validator)
    (hcv : cvs.any (fun v => v.always) = false) :
    (buildField name ty cvs Val.null false false).1.allow_none = true := by
  cases ty <;>
    simp only [buildField, Ty.validateAlways, hcv, Bool.or_false, Val.isNull] <;>
    exact buildFieldCore_allow_none _ _ _ _ _ _ _ _ (by simp)

/-- C9: a field built with `required=false`, a null default, no
always-flagged class validator and a type not demanding always-validation is
made nullable by `prepare` (`fields.py` lines 263-268), so a null input
short-circuits validation and is accepted (lines 355-357) for any declared
type, nullable union or not. -/
theorem c9_unrequired_null_default_nullable (name : String) (ty : Ty)
    (cvs : List Validator) (loc : Loc)
    (hty : ty.validateAlways = false)
    (hcv : ∀ v ∈ cvs, v.always = false) :
    (mkField name ty cvs Val.null false false).allow_none = true ∧
    (mkField name ty cvs Val.null false false).validate Val.null loc = .ok (Val.null, none) := by
  have hany : cvs.any (fun v => v.always) = false := by
    rw [List.any_eq_false]
    intro v hv
    simp [hcv v hv]
  have h1 : (mkField name ty cvs Val.null false false).allow_none = true :=
    buildField_allow_none_inferred name ty cvs hany
  exact ⟨h1, validate_null_of_allow_none _ _ h1⟩

theorem c9_unrequired_null_default_nullable_witness :
    (mkField "x" Ty.int [] Val.null false false).allow_none = true ∧
    (mkField "x" Ty.int [] Val.null false false).validate Val.null [] = .ok (Val.null, none) :=
  c9_unrequired_null_default_nullable "x" Ty.int [] [] rfl (by intro v hv; cases hv)

lemma buildSubs_length (nameOf : Ty → String) (ts : List Ty) (cvs : List Validator)
    (default : Val) (required an : Bool) :
    (buildSubs nameOf ts cvs default required an).1.length = ts.length := by
  induction ts with
  | nil => simp [buildSubs]
  | cons t rest ih => simp [buildSubs, ih]

/-- C6 counterexample: the nullable union with exactly one non-null
alternative, `Union[int, None]`.  The source (lines 286-295) never unwraps a
single remaining alternative: the built descriptor is nullable but still
carries an alternatives sub-field list of length 1, contradicting both the
claimed direct use of the alternative and the claimed invariant that an
alternatives list has at least 2 sub-fields. -/
theorem c6_counterexample_single_alternative :
    (mkField "x" (Ty.union [Ty.int, Ty.noneTy]) [] Val.null true false).allow_none = true ∧
    (mkField "x" (Ty.union [Ty.int, Ty.noneTy]) [] Val.null true false).sub_fields ≠ [] ∧
    (mkField "x" (Ty.union [Ty.int, Ty.noneTy]) [] Val.null true false).sub_fields.length = 1 := by
  refine ⟨?_, ?_, ?_⟩ <;>
    simp [mkField, buildField, buildFieldCore, assembleField, buildSubs, prepVals,
      findValidators, Field.allow_none, Field.sub_fields, Ty.validateAlways, Ty.isNone,
      Ty.display, List.filter, Val.isNull, getValidatorSignature]

/-- C6 amended: shape resolution of a union strips the null alternatives
(setting nullable) and always creates the alternatives sub-field list with
one sub-field per remaining alternative — a nullable union with exactly one
non-null alternative keeps a one-element alternatives list rather than using
the alternative directly, so a descriptor carrying an alternatives sub-field
list may have exactly 1 sub-field (`fields.py` lines 286-295). -/
theorem c6_union_subfields_per_alternative (name : String) (args : List Ty)
    (cvs : List Validator) (default : Val) (required an0 : Bool) :
    (mkField name (Ty.union args) cvs default required an0).sub_fields.length
      = (args.filter (fun t => !t.isNone)).length ∧
    (args.any Ty.isNone = true →
      (mkField name (Ty.union args) cvs default required an0).allow_none = true) := by
  constructor
  · simp only [mkField, buildField, buildFieldCore, assembleField, Field.sub_fields]
    exact buildSubs_length _ _ _ _ _ _
  · intro h
    simp [mkField, buildField, buildFieldCore, assembleField, Field.allow_none, h]

theorem c6_union_subfields_per_alternative_witness :
    (mkField "x" (Ty.union [Ty.int, Ty.noneTy]) [] Val.null true false).sub_fields.length
      = ([Ty.int, Ty.noneTy].filter (fun t => !t.isNone)).length ∧
    (mkField "x" (Ty.union [Ty.int, Ty.noneTy]) [] Val.null true false).allow_none = true := by
  have h := c6_union_subfields_per_alternative "x" [Ty.int, Ty.noneTy] [] Val.null true false
  exact ⟨h.1, h.2 rfl⟩


lemma validateAlts_first_success (pre : List Field) (A : Field) (post : List Field)
    (v w : Val) (loc : Loc)
    (hfail : ∀ g ∈ pre, ∃ wg eg, g.validate v loc = .ok (wg, some eg))
    (hA : A.validate v loc = .ok (w, none)) :
    validateAlts (pre ++ A :: post) v loc = .ok (some w, []) := by
  induction pre with
  | nil =>
    rw [List.nil_append, validateAlts, hA]
  | cons g rest ih =>
    obtain ⟨wg, eg, hg⟩ := hfail g (by simp)
    rw [List.cons_append, validateAlts, hg,
      ih (fun g2 hg2 => hfail g2 (List.mem_cons_of_mem g hg2))]

lemma validateAlts_all_fail (subs : List Field) (v : Val) (loc : Loc)
    (errsOf : Field → ErrTree)
    (hfail : ∀ g ∈ subs, ∃ wg, g.validate v loc = .ok (wg, some (errsOf g))) :
    validateAlts subs v loc = .ok (none, subs.map errsOf) := by
  induction subs with
  | nil => rw [validateAlts]; rfl
  | cons g rest ih =>
    obtain ⟨wg, hg⟩ := hfail g (by simp)
    rw [validateAlts, hg, ih (fun g2 hg2 => hfail g2 (List.mem_cons_of_mem g hg2))]
    rfl

/-- C2: for a singleton descriptor with alternative sub-fields,
`_validate_singleton` (`fields.py` lines 464-473) tries each alternative's
`validate` in declaration order and returns the first successful value
unchanged — in particular, with alternatives `pre ++ A :: post` where every
earlier alternative fails, an input valid under `A` (and possibly under later
alternatives, which are unconstrained) validates as `A` — and when every
alternative fails it returns the original value with the list of all the
alternatives' error reports in declaration order. -/
theorem c2_alternatives_first_match_wins (f : Field) (v : Val) (loc : Loc) :
    (∀ (pre post : List Field) (A : Field) (w : Val),
      f.sub_fields = pre ++ A :: post →
      (∀ g ∈ pre, ∃ wg eg, g.validate v loc = .ok (wg, some eg)) →
      A.validate v loc = .ok (w, none) →
      f.validateSingleton v loc = .ok (w, none)) ∧
    (∀ errsOf : Field → ErrTree, f.sub_fields ≠ [] →
      (∀ g ∈ f.sub_fields, ∃ wg, g.validate v loc = .ok (wg, some (errsOf g))) →
      f.validateSingleton v loc = .ok (v, some (.list (f.sub_fields.map errsOf)))) := by
  constructor
  · intro pre post A w hsubs hfail hA
    rw [Field.validateSingleton, hsubs]
    simp only [List.isEmpty_eq_true, List.append_eq_nil, List.cons_ne_nil, and_false,
      if_false, validateAlts_first_success pre A post v w loc hfail hA]
  · intro errsOf hne hfail
    rw [Field.validateSingleton]
    simp only [List.isEmpty_eq_true, hne, if_false,
      validateAlts_all_fail f.sub_fields v loc errsOf hfail]
    simp [hne]

/-- An alternative that accepts any input, replacing it by a tag. -/
def altAccept (tag : String) : Field :=
  Field.mk tag Ty.int [] none
    [(ValidatorSignature.JUST_VALUE, .user 1 .JUST_VALUE (fun _ => .ok (.str tag)))]
    [] [] Val.null true false false Shape.SINGLETON [] false

/-- An alternative that rejects any input with a `ValueError` naming it. -/
def altReject (tag : String) : Field :=
  Field.mk tag Ty.int [] none
    [(ValidatorSignature.JUST_VALUE, .user 2 .JUST_VALUE (fun _ => .error (.valueError tag)))]
    [] [] Val.null true false false Shape.SINGLETON [] false

/-- A singleton descriptor whose alternatives both accept every input. -/
def altBothOk : Field :=
  Field.mk "p" Ty.int [altAccept "A", altAccept "B"] none [] [] []
    Val.null true false false Shape.SINGLETON [] false

/-- A singleton descriptor whose alternatives both reject every input. -/
def altBothFail : Field :=
  Field.mk "q" Ty.int [altReject "A", altReject "B"] none [] [] []
    Val.null true false false Shape.SINGLETON [] false

theorem c2_alternatives_first_match_wins_witness :
    altBothOk.validateSingleton (Val.int 0) [] = .ok (Val.str "A", none) ∧
    altBothFail.validateSingleton (Val.int 0) []
      = .ok (Val.int 0, some (.list [.wrapper (.valueError "A") [], .wrapper (.valueError "B") []])) := by
  constructor
  · refine (c2_alternatives_first_match_wins altBothOk (Val.int 0) []).1
      [] [altAccept "B"] (altAccept "A") (Val.str "A") rfl (by simp) ?_
    unfold Field.validate
    simp [altAccept, Field.allow_none, Field.parse_json, Field.whole_pre_validators,
      Field.whole_post_validators, Field.shape, Field.sub_fields, Field.validators,
      Field.validateSingleton, applyValidators_cons, applyValidators, VFunc.run, Val.isNull]
  · have h := (c2_alternatives_first_match_wins altBothFail (Val.int 0) []).2
      (fun g => .wrapper (.valueError g.name) []) (by simp [altBothFail, Field.sub_fields]) ?_
    · simpa [altBothFail, Field.sub_fields, altReject, Field.name] using h
    · intro g hg
      have hrun : ∀ tag, (altReject tag).validate (Val.int 0) []
          = .ok (Val.int 0, some (.wrapper (.valueError tag) [])) := by
        intro tag
        unfold Field.validate
        simp [altReject, Field.allow_none, Field.parse_json, Field.whole_pre_validators,
          Field.whole_post_validators, Field.shape, Field.sub_fields, Field.validators,
          Field.validateSingleton, applyValidators_cons, applyValidators, VFunc.run,
          Val.isNull, Exc.caught]
      rcases (by simpa [altBothFail, Field.sub_fields] using hg : g = altReject "A" ∨ g = altReject "B") with h1 | h1 <;>
        subst h1 <;> exact ⟨Val.int 0, by simpa [altReject, Field.name] using hrun _⟩


/-- C4: a TUPLE-shape descriptor given a list-like input whose length differs
from the declared arity returns exactly one arity-mismatch error carrying the
actual and expected lengths at the field's own location (`fields.py` lines
412-422).  The positional sub-fields are unconstrained and the result is a
normal return, so no positional sub-field's validation can have run and no
per-position error is produced. -/
theorem c4_tuple_arity_error (f : Field) (elems : List Val) (loc : Loc)
    (hshape : f.shape = Shape.TUPLE) (hjson : f.parse_json = false)
    (hwpre : f.whole_pre_validators = [])
    (hlen : elems.length ≠ f.sub_fields.length) :
    f.validate (Val.list elems) loc =
      .ok (Val.list elems,
        some (.wrapper (.tupleLengthError elems.length f.sub_fields.length) loc)) := by
  unfold Field.validate
  simp [Field.validateTuple, hshape, hjson, hwpre, hlen, Val.isNull, list_like, Val.elems]

/-- A two-position TUPLE descriptor whose positional sub-fields would throw
if consulted. -/
def c4Field : Field :=
  Field.mk "t" Ty.int [c1Field, c1Field] none [] [] []
    Val.null true false false Shape.TUPLE [] false

theorem c4_tuple_arity_error_witness :
    c4Field.validate (Val.list [Val.int 1, Val.int 2, Val.int 3]) []
      = .ok (Val.list [Val.int 1, Val.int 2, Val.int 3],
          some (.wrapper (.tupleLengthError 3 2) [])) := by
  have h := c4_tuple_arity_error c4Field [Val.int 1, Val.int 2, Val.int 3] []
    rfl rfl rfl (by simp [c4Field, Field.sub_fields])
  simpa [c4Field, Field.sub_fields] using h

lemma validate_singleton_reduce (f : Field) (v : Val) (loc : Loc)
    (hshape : f.shape = Shape.SINGLETON) (hjson : f.parse_json = false)
    (hwpre : f.whole_pre_validators = []) (hnone : f.allow_none = false) :
    f.validate v loc =
      match f.validateSingleton v loc with
      | .error exc => .error exc
      | .ok (v3, some e) => .ok (v3, some e)
      | .ok (v3, none) =>
        if f.whole_post_validators.isEmpty then .ok (v3, none)
        else applyValidators loc f.whole_post_validators v3 := by
  unfold Field.validate
  simp [hshape, hjson, hwpre, hnone]

/-- C7: during `validate` of a singleton descriptor, a pipeline step raising
an exception outside the recognized value-error vocabulary (anything but
`ValueError`/`TypeError`) is not folded into the error report but propagates
uncaught out of `validate`, while a step raising a caught
`ValueError`/`TypeError` stops the chain — the remaining steps `post` are
unconstrained and never run — and becomes one location-tagged error holding
the value as it stood before the failing step (`fields.py` lines 477-491). -/
theorem c7_uncaught_exception_propagates (f : Field) (v v1 : Val) (loc : Loc)
    (pre post : List (ValidatorSignature × VFunc)) (sig : ValidatorSignature) (g : VFunc)
    (hshape : f.shape = Shape.SINGLETON) (hsubs : f.sub_fields = [])
    (hjson : f.parse_json = false) (hwpre : f.whole_pre_validators = [])
    (hnone : f.allow_none = false)
    (hvals : f.validators = pre ++ (sig, g) :: post)
    (hpre : applyValidators loc pre v = .ok (v1, none)) :
    (∀ m, g.run v1 = .error (.other m) → f.validate v loc = .error (.other m)) ∧
    (∀ exc, g.run v1 = .error exc → exc.caught = true →
      f.validate v loc = .ok (v1, some (.wrapper exc loc))) := by
  have hsing : f.validateSingleton v loc
      = match g.run v1 with
        | .ok w => applyValidators loc post w
        | .error exc =>
          if exc.caught then .ok (v1, some (.wrapper exc loc)) else .error exc := by
    rw [Field.validateSingleton]
    simp only [hsubs, List.isEmpty_nil, if_true]
    rw [hvals, applyValidators_append, hpre]
    dsimp only
    rw [applyValidators_cons]
  constructor
  · intro m hrun
    rw [validate_singleton_reduce f v loc hshape hjson hwpre hnone, hsing, hrun]
    simp [Exc.caught]
  · intro exc hrun hc
    rw [validate_singleton_reduce f v loc hshape hjson hwpre hnone, hsing, hrun]
    simp [hc]

/-- A singleton descriptor whose only pipeline step raises an exception
outside the value-error vocabulary; the step after it would transform the
value if it ever ran. -/
def c7BoomField : Field :=
  Field.mk "b" Ty.int [] none
    [(ValidatorSignature.JUST_VALUE, .user 11 .JUST_VALUE (fun _ => .error (.other "boom"))),
     (ValidatorSignature.JUST_VALUE, .user 12 .JUST_VALUE (fun _ => .ok (.str "changed")))]
    [] [] Val.null true false false Shape.SINGLETON [] false

/-- A singleton descriptor whose only pipeline step raises a `ValueError`,
followed by a step that would transform the value if it ever ran. -/
def c7ValueErrField : Field :=
  Field.mk "c" Ty.int [] none
    [(ValidatorSignature.JUST_VALUE, .user 13 .JUST_VALUE (fun _ => .error (.valueError "bad"))),
     (ValidatorSignature.JUST_VALUE, .user 14 .JUST_VALUE (fun _ => .ok (.str "changed")))]
    [] [] Val.null true false false Shape.SINGLETON [] false

theorem c7_uncaught_exception_propagates_witness :
    c7BoomField.validate (Val.int 0) [] = .error (.other "boom") ∧
    c7ValueErrField.validate (Val.int 0) []
      = .ok (Val.int 0, some (.wrapper (.valueError "bad") [])) := by
  constructor
  · exact (c7_uncaught_exception_propagates c7BoomField (Val.int 0) (Val.int 0) [] []
      [(ValidatorSignature.JUST_VALUE, .user 12 .JUST_VALUE (fun _ => .ok (.str "changed")))]
      .JUST_VALUE (.user 11 .JUST_VALUE (fun _ => .error (.other "boom")))
      rfl rfl rfl rfl rfl rfl rfl).1 "boom" rfl
  · exact (c7_uncaught_exception_propagates c7ValueErrField (Val.int 0) (Val.int 0) [] []
      [(ValidatorSignature.JUST_VALUE, .user 14 .JUST_VALUE (fun _ => .ok (.str "changed")))]
      .JUST_VALUE (.user 13 .JUST_VALUE (fun _ => .error (.valueError "bad")))
      rfl rfl rfl rfl rfl rfl rfl).2 (.valueError "bad") rfl rfl


/-- Given the per-index element-pipeline results, the validated values of the
succeeding indices, in index order. -/
def collectOks (res : Nat → VRes) (n : Nat) : List Val :=
  (List.range n).filterMap (fun j =>
    match (res j).2 with
    | none => some (res j).1
    | some _ => none)

/-- Given the per-index element-pipeline results, the errors of the failing
indices, in index order. -/
def collectErrs (res : Nat → VRes) (n : Nat) : List ErrTree :=
  (List.range n).filterMap (fun j => (res j).2)

lemma collectOks_succ (res : Nat → VRes) (n : Nat) :
    collectOks res (n + 1) =
      (match (res 0).2 with | none => [(res 0).1] | some _ => [])
        ++ collectOks (fun j => res (j + 1)) n := by
  simp only [collectOks, List.range_succ_eq_map, List.filterMap_cons, List.filterMap_map]
  cases h : (res 0).2
  · simp only [h, List.singleton_append]
    rfl
  · simp only [h, List.nil_append]
    rfl

lemma collectErrs_succ (res : Nat → VRes) (n : Nat) :
    collectErrs res (n + 1) =
      (match (res 0).2 with | none => [] | some e => [e])
        ++ collectErrs (fun j => res (j + 1)) n := by
  simp only [collectErrs, List.range_succ_eq_map, List.filterMap_cons, List.filterMap_map]
  cases h : (res 0).2
  · simp only [h, List.nil_append]
    rfl
  · simp only [h, List.singleton_append]
    rfl

lemma validateElems_eq (f : Field) (loc : Loc) :
    ∀ (elems : List Val) (i : Nat) (res : Nat → VRes),
      (∀ j e, elems.get? j = some e →
        f.validateSingleton e (loc ++ [.i (i + j)]) = .ok (res j)) →
      validateElems f elems loc i
        = .ok (collectOks res elems.length, collectErrs res elems.length) := by
  intro elems
  induction elems with
  | nil =>
    intro i res _
    simp [validateElems, collectOks, collectErrs]
  | cons e rest ih =>
    intro i res h
    have h0 : f.validateSingleton e (loc ++ [.i i]) = .ok (res 0) := by
      have h2 := h 0 e rfl
      simpa using h2
    have hrest := ih (i + 1) (fun j => res (j + 1)) ?_
    · rw [validateElems, h0]
      dsimp only
      rw [hrest]
      rw [List.length_cons, collectOks_succ, collectErrs_succ]
      cases h2 : (res 0).2 <;> simp [h2]
    · intro j e2 hj
      have h3 := h (j + 1) e2 (by simpa using hj)
      have harith : i + (j + 1) = i + 1 + j := by omega
      simpa [harith] using h3

/-- C3: a LIST- or SET-shape descriptor given a list-like input of elements
whose element-pipeline outcomes are `res` returns exactly the errors of the
failing indices — one per failing element, each produced by the element
validation performed at the field's location extended by that element's index
— and, since at least one element fails (`1 ≤ k`), the original input is
returned unchanged rather than a partial list or set of the valid elements
(`fields.py` lines 393-410, 377-381). -/
theorem c3_list_set_error_per_failing_index (f : Field) (elems : List Val) (loc : Loc)
    (res : Nat → VRes) (k : Nat)
    (hshape : f.shape = Shape.LIST ∨ f.shape = Shape.SET)
    (hjson : f.parse_json = false) (hwpre : f.whole_pre_validators = [])
    (hres : ∀ j e, elems.get? j = some e →
      f.validateSingleton e (loc ++ [.i j]) = .ok (res j))
    (hk : (collectErrs res elems.length).length = k) (hk1 : 1 ≤ k) :
    f.validate (Val.list elems) loc
      = .ok (Val.list elems, some (.list (collectErrs res elems.length))) := by
  have hne : (collectErrs res elems.length).isEmpty = false := by
    cases h : collectErrs res elems.length with
    | nil =>
      rw [h, List.length_nil] at hk
      omega
    | cons a l => rfl
  have hels := validateElems_eq f loc elems 0 res (by intro j e hj; simpa using hres j e hj)
  have hls : f.validateListSet (Val.list elems) loc
      = .ok (Val.list elems, some (.list (collectErrs res elems.length))) := by
    rw [Field.validateListSet]
    rw [show list_like (Val.list elems) = true from rfl, if_pos rfl]
    rw [show (Val.list elems).elems = elems from rfl, hels]
    dsimp only
    rw [hne]
    simp
  have hs1 : f.shape ≠ Shape.SINGLETON := by rcases hshape with h | h <;> simp [h]
  have hs2 : f.shape ≠ Shape.MAPPING := by rcases hshape with h | h <;> simp [h]
  have hs3 : f.shape ≠ Shape.TUPLE := by rcases hshape with h | h <;> simp [h]
  unfold Field.validate
  simp [hjson, hwpre, Val.isNull, hs1, hs2, hs3, hls]

/-- A LIST-of-int descriptor (element pipeline is the built-in int chain). -/
def c3Field : Field :=
  Field.mk "x" Ty.int [] none [(ValidatorSignature.JUST_VALUE, .int_v)] [] []
    Val.null true false false Shape.LIST [] false

/-- The element outcomes of `c3Field` on `[1, "a", "b"]` at location `x`. -/
def c3Res : Nat → VRes
  | 0 => (.int 1, none)
  | 1 => (.str "a", some (.wrapper (.valueError "invalid literal for int") [.s "x", .i 1]))
  | 2 => (.str "b", some (.wrapper (.valueError "invalid literal for int") [.s "x", .i 2]))
  | _ => (.null, none)

theorem c3_list_set_error_per_failing_index_witness :
    c3Field.validate (Val.list [Val.int 1, Val.str "a", Val.str "b"]) [.s "x"]
      = .ok (Val.list [Val.int 1, Val.str "a", Val.str "b"],
          some (.list [.wrapper (.valueError "invalid literal for int") [.s "x", .i 1],
                       .wrapper (.valueError "invalid literal for int") [.s "x", .i 2]])) := by
  have h := c3_list_set_error_per_failing_index c3Field
    [Val.int 1, Val.str "a", Val.str "b"] [.s "x"] c3Res 2
    (Or.inl rfl) rfl rfl ?_ rfl (by omega)
  · exact h
  · intro j e hj
    match j with
    | 0 =>
      simp only [List.get?] at hj
      cases hj
      simp [c3Field, Field.validateSingleton, Field.sub_fields, Field.validators,
        applyValidators_cons, applyValidators, VFunc.run, intRun, c3Res]
    | 1 =>
      simp only [List.get?] at hj
      cases hj
      simp [c3Field, Field.validateSingleton, Field.sub_fields, Field.validators,
        applyValidators_cons, applyValidators, VFunc.run, intRun, c3Res, Exc.caught]
    | 2 =>
      simp only [List.get?] at hj
      cases hj
      simp [c3Field, Field.validateSingleton, Field.sub_fields, Field.validators,
        applyValidators_cons, applyValidators, VFunc.run, intRun, c3Res, Exc.caught]
    | (n + 3) =>
      simp at hj


/-- Given the per-entry key and value outcomes, the assembled result entries:
the validated (key, value) pairs of the entries whose key and value both
succeeded, in entry order (the `result` dict of `_validate_mapping`). -/
def collectMapOks (kres vres : Nat → VRes) (n : Nat) : List (Val × Val) :=
  (List.range n).filterMap (fun j =>
    match (kres j).2 with
    | some _ => none
    | none =>
      match (vres j).2 with
      | some _ => none
      | none => some ((kres j).1, (vres j).1))

/-- Given the per-entry key and value outcomes, the collected errors: one per
failed entry (its key error if the key failed, else its value error), in
entry order. -/
def collectMapErrs (kres vres : Nat → VRes) (n : Nat) : List ErrTree :=
  (List.range n).filterMap (fun j =>
    match (kres j).2 with
    | some e => some e
    | none => (vres j).2)

lemma collectMapOks_succ (kres vres : Nat → VRes) (n : Nat) :
    collectMapOks kres vres (n + 1) =
      (match (kres 0).2 with
       | some _ => []
       | none =>
         match (vres 0).2 with
         | some _ => []
         | none => [((kres 0).1, (vres 0).1)])
        ++ collectMapOks (fun j => kres (j + 1)) (fun j => vres (j + 1)) n := by
  simp only [collectMapOks, List.range_succ_eq_map, List.filterMap_cons, List.filterMap_map]
  cases h : (kres 0).2
  · cases h2 : (vres 0).2
    · simp only [h, h2, List.singleton_append]
      rfl
    · simp only [h, h2, List.nil_append]
      rfl
  · simp only [h, List.nil_append]
    rfl

lemma collectMapErrs_succ (kres vres : Nat → VRes) (n : Nat) :
    collectMapErrs kres vres (n + 1) =
      (match (kres 0).2 with
       | some e => [e]
       | none =>
         match (vres 0).2 with
         | some e => [e]
         | none => [])
        ++ collectMapErrs (fun j => kres (j + 1)) (fun j => vres (j + 1)) n := by
  simp only [collectMapErrs, List.range_succ_eq_map, List.filterMap_cons, List.filterMap_map]
  cases h : (kres 0).2
  · cases h2 : (vres 0).2
    · simp only [h, h2, List.nil_append]
      rfl
    · simp only [h, h2, List.singleton_append]
      rfl
  · simp only [h, List.singleton_append]
    rfl

lemma validateMapEntries_cons (f kf : Field) (loc : Loc) (hkf : f.key_field = some kf)
    (k v : Val) (rest : List (Val × Val)) :
    validateMapEntries f ((k, v) :: rest) loc =
      match kf.validate k (loc ++ [.s "__key__"]) with
      | .error exc => .error exc
      | .ok (_, some e) =>
        match validateMapEntries f rest loc with
        | .error exc => .error exc
        | .ok (rs, es) => .ok (rs, e :: es)
      | .ok (key_result, none) =>
        match f.validateSingleton v (loc ++ [.v k]) with
        | .error exc => .error exc
        | .ok (_, some e) =>
          match validateMapEntries f rest loc with
          | .error exc => .error exc
          | .ok (rs, es) => .ok (rs, e :: es)
        | .ok (value_result, none) =>
          match validateMapEntries f rest loc with
          | .error exc => .error exc
          | .ok (rs, es) => .ok ((key_result, value_result) :: rs, es) := by
  rw [validateMapEntries]
  split
  · simp_all
  · rename_i kf2 h2
    rw [h2] at hkf
    cases hkf
    rfl

lemma validateMapEntries_eq (f kf : Field) (loc : Loc) (hkf : f.key_field = some kf) :
    ∀ (entries : List (Val × Val)) (kres vres : Nat → VRes),
      (∀ j p, entries.get? j = some p →
        kf.validate p.1 (loc ++ [.s "__key__"]) = .ok (kres j)) →
      (∀ j p, entries.get? j = some p → (kres j).2 = none →
        f.validateSingleton p.2 (loc ++ [.v p.1]) = .ok (vres j)) →
      validateMapEntries f entries loc
        = .ok (collectMapOks kres vres entries.length,
               collectMapErrs kres vres entries.length) := by
  intro entries
  induction entries with
  | nil =>
    intro kres vres _ _
    simp [validateMapEntries, collectMapOks, collectMapErrs]
  | cons p rest ih =>
    intro kres vres hk hv
    obtain ⟨k, v⟩ := p
    have hk0 := hk 0 (k, v) rfl
    have hrest := ih (fun j => kres (j + 1)) (fun j => vres (j + 1))
      (fun j q hj => hk (j + 1) q (by simpa using hj))
      (fun j q hj h2 => hv (j + 1) q (by simpa using hj) h2)
    rw [validateMapEntries_cons f kf loc hkf, hk0]
    rw [List.length_cons, collectMapOks_succ, collectMapErrs_succ]
    rcases hkp : kres 0 with ⟨a, b⟩
    cases b with
    | none =>
      have hv0 := hv 0 (k, v) rfl (by rw [hkp])
      rw [hv0]
      rcases hvp : vres 0 with ⟨c, d⟩
      cases d <;> simp [hrest]
    | some e =>
      simp [hrest]

lemma validate_mapping_reduce (f : Field) (v : Val) (loc : Loc)
    (hshape : f.shape = Shape.MAPPING) (hjson : f.parse_json = false)
    (hwpre : f.whole_pre_validators = []) (hnn : v.isNull = false) :
    f.validate v loc =
      match f.validateMapping v loc with
      | .error exc => .error exc
      | .ok (v3, some e) => .ok (v3, some e)
      | .ok (v3, none) =>
        if f.whole_post_validators.isEmpty then .ok (v3, none)
        else applyValidators loc f.whole_post_validators v3 := by
  unfold Field.validate
  simp [hshape, hjson, hwpre, hnn]

lemma dict_validator_not_dict (w : Val) (h : w.isDict = false) :
    dict_validator w = .error (.typeError "value is not a valid dict") := by
  cases w <;> simp_all [dict_validator, Val.isDict]

/-- C5: a MAPPING-shape descriptor rejects a non-mapping input with exactly
one type error at the field's own location (`fields.py` lines 439-442); a
mapping input has its entries validated independently: each failing entry
contributes its own error to the collected list (a failure does not stop the
validation of later entries) and is excluded from the assembled `result`
mapping, succeeding entries are validated and kept in `result`, and the field
as a whole returns the error list — with the original input — whenever at
least one entry failed, returning the assembled mapping only when none did
(lines 444-462). -/
theorem c5_mapping_independent_entries (f kf : Field) (loc : Loc)
    (hshape : f.shape = Shape.MAPPING) (hkey : f.key_field = some kf)
    (hjson : f.parse_json = false) (hwpre : f.whole_pre_validators = [])
    (hwpost : f.whole_post_validators = []) :
    (∀ w : Val, w.isDict = false → w.isNull = false →
      f.validate w loc
        = .ok (w, some (.wrapper (.typeError "value is not a valid dict") loc))) ∧
    (∀ (entries : List (Val × Val)) (kres vres : Nat → VRes),
      (∀ j p, entries.get? j = some p →
        kf.validate p.1 (loc ++ [.s "__key__"]) = .ok (kres j)) →
      (∀ j p, entries.get? j = some p → (kres j).2 = none →
        f.validateSingleton p.2 (loc ++ [.v p.1]) = .ok (vres j)) →
      f.validate (Val.dict entries) loc =
        .ok (if (collectMapErrs kres vres entries.length).isEmpty
             then (Val.dict (collectMapOks kres vres entries.length), none)
             else (Val.dict entries,
                   some (.list (collectMapErrs kres vres entries.length))))) := by
  constructor
  · intro w hw hnn
    rw [validate_mapping_reduce f w loc hshape hjson hwpre hnn]
    rw [Field.validateMapping, dict_validator_not_dict w hw]
  · intro entries kres vres hk hv
    have hme := validateMapEntries_eq f kf loc hkey entries kres vres hk hv
    rw [validate_mapping_reduce f (Val.dict entries) loc hshape hjson hwpre rfl]
    rw [Field.validateMapping]
    rw [show dict_validator (Val.dict entries) = .ok entries from rfl]
    dsimp only
    rw [hme]
    dsimp only
    cases h : (collectMapErrs kres vres entries.length).isEmpty <;> simp [h, hwpost]


/-- The key descriptor of the C5 witness: the built-in str chain. -/
def c5KeyField : Field :=
  Field.mk "key_x" Ty.str [] none
    [(ValidatorSignature.JUST_VALUE, .not_none), (ValidatorSignature.JUST_VALUE, .str_v)]
    [] [] Val.null true false false Shape.SINGLETON [] false

/-- A MAPPING descriptor from strings to ints. -/
def c5Field : Field :=
  Field.mk "x" Ty.int [] (some c5KeyField)
    [(ValidatorSignature.JUST_VALUE, .int_v)] [] []
    Val.null true false false Shape.MAPPING [] false

/-- Key outcomes of `c5Field` on `{"a": 1, "b": "z"}`. -/
def c5KRes : Nat → VRes
  | 0 => (.str "a", none)
  | 1 => (.str "b", none)
  | _ => (.null, none)

/-- Value outcomes of `c5Field` on `{"a": 1, "b": "z"}`. -/
def c5VRes : Nat → VRes
  | 0 => (.int 1, none)
  | 1 => (.str "z", some (.wrapper (.valueError "invalid literal for int") [.v (.str "b")]))
  | _ => (.null, none)

theorem c5_mapping_independent_entries_witness :
    c5Field.validate (Val.int 3) []
      = .ok (Val.int 3, some (.wrapper (.typeError "value is not a valid dict") [])) ∧
    c5Field.validate (Val.dict [(Val.str "a", Val.int 1), (Val.str "b", Val.str "z")]) []
      = .ok (Val.dict [(Val.str "a", Val.int 1), (Val.str "b", Val.str "z")],
          some (.list [.wrapper (.valueError "invalid literal for int") [.v (.str "b")]])) := by
  have h := c5_mapping_independent_entries c5Field c5KeyField [] rfl rfl rfl rfl rfl
  constructor
  · exact h.1 (Val.int 3) rfl rfl
  · have h2 := h.2 [(Val.str "a", Val.int 1), (Val.str "b", Val.str "z")] c5KRes c5VRes ?_ ?_
    · exact h2.trans (by rfl)
    · intro j p hj
      match j with
      | 0 =>
        simp only [List.get?] at hj
        cases hj
        simp [c5KeyField, Field.validate, Field.validateSingleton, Field.allow_none,
          Field.parse_json, Field.whole_pre_validators, Field.whole_post_validators,
          Field.shape, Field.sub_fields, Field.validators, applyValidators_cons,
          applyValidators, VFunc.run, notNoneRun, strRun, Val.isNull, c5KRes]
      | 1 =>
        simp only [List.get?] at hj
        cases hj
        simp [c5KeyField, Field.validate, Field.validateSingleton, Field.allow_none,
          Field.parse_json, Field.whole_pre_validators, Field.whole_post_validators,
          Field.shape, Field.sub_fields, Field.validators, applyValidators_cons,
          applyValidators, VFunc.run, notNoneRun, strRun, Val.isNull, c5KRes]
      | (n + 2) =>
        simp at hj
    · intro j p hj h2
      match j with
      | 0 =>
        simp only [List.get?] at hj
        cases hj
        simp [c5Field, Field.validateSingleton, Field.sub_fields, Field.validators,
          applyValidators_cons, applyValidators, VFunc.run, intRun, c5VRes]
      | 1 =>
        simp only [List.get?] at hj
        cases hj
        simp [c5Field, Field.validateSingleton, Field.sub_fields, Field.validators,
          applyValidators_cons, applyValidators, VFunc.run, intRun, c5VRes, Exc.caught]
      | (n + 2) =>
        simp at hj

/-- C10: in MAPPING validation, an entry whose key fails key-descriptor
validation never has its value validated — the entry's value and the
descriptor's entire value pipeline are unconstrained here (the witness uses a
pipeline that would raise an uncatchable exception), yet the call returns
normally with only the two key errors — and each key error comes from a
validation performed at the fixed location `loc + "__key__"`, which does not
record which key failed, so the two failing keys of the same mapping produce
errors at identical locations (`fields.py` lines 444-453). -/
theorem c10_failed_key_skips_value (f kf : Field) (loc : Loc)
    (k1 w1 k2 w2 r1 r2 : Val) (e1 e2 : ErrTree)
    (hshape : f.shape = Shape.MAPPING) (hkey : f.key_field = some kf)
    (hjson : f.parse_json = false) (hwpre : f.whole_pre_validators = [])
    (h1 : kf.validate k1 (loc ++ [.s "__key__"]) = .ok (r1, some e1))
    (h2 : kf.validate k2 (loc ++ [.s "__key__"]) = .ok (r2, some e2)) :
    f.validate (Val.dict [(k1, w1), (k2, w2)]) loc
      = .ok (Val.dict [(k1, w1), (k2, w2)], some (.list [e1, e2])) := by
  have hme : validateMapEntries f [(k1, w1), (k2, w2)] loc = .ok ([], [e1, e2]) := by
    rw [validateMapEntries_cons f kf loc hkey, h1]
    dsimp only
    rw [validateMapEntries_cons f kf loc hkey, h2]
    dsimp only
    rw [validateMapEntries]
  rw [validate_mapping_reduce f (Val.dict [(k1, w1), (k2, w2)]) loc hshape hjson hwpre rfl]
  rw [Field.validateMapping]
  rw [show dict_validator (Val.dict [(k1, w1), (k2, w2)])
        = .ok [(k1, w1), (k2, w2)] from rfl]
  dsimp only
  rw [hme]
  rfl

/-- The key descriptor of the C10 witness: the built-in int chain, which
rejects string keys. -/
def c10KeyField : Field :=
  Field.mk "key_m" Ty.int [] none [(ValidatorSignature.JUST_VALUE, .int_v)] [] []
    Val.null true false false Shape.SINGLETON [] false

/-- A MAPPING descriptor whose value pipeline would raise an uncatchable
exception if it ever ran. -/
def c10Field : Field :=
  Field.mk "m" Ty.int [] (some c10KeyField) [poisonStep] [] []
    Val.null true false false Shape.MAPPING [] false

theorem c10_failed_key_skips_value_witness :
    c10Field.validate (Val.dict [(Val.str "a", Val.int 1), (Val.str "b", Val.int 2)]) []
      = .ok (Val.dict [(Val.str "a", Val.int 1), (Val.str "b", Val.int 2)],
          some (.list
            [.wrapper (.valueError "invalid literal for int") [.s "__key__"],
             .wrapper (.valueError "invalid literal for int") [.s "__key__"]])) := by
  refine c10_failed_key_skips_value c10Field c10KeyField [] (Val.str "a") (Val.int 1)
    (Val.str "b") (Val.int 2) (Val.str "a") (Val.str "b")
    (.wrapper (.valueError "invalid literal for int") [.s "__key__"])
    (.wrapper (.valueError "invalid literal for int") [.s "__key__"])
    rfl rfl rfl rfl ?_ ?_ <;>
    simp [c10KeyField, Field.validate, Field.validateSingleton, Field.allow_none,
      Field.parse_json, Field.whole_pre_validators, Field.whole_post_validators,
      Field.shape, Field.sub_fields, Field.validators, applyValidators_cons,
      applyValidators, VFunc.run, intRun, Val.isNull, Exc.caught]


/-- A user validator (identity 7) registered as a non-whole post validator
and shared between two field declarations. -/
def sharedUserValidator : Validator :=
  { func := .user 7 .JUST_VALUE (fun v => .ok v),
    pre := false, whole := false, always := false, check_fields := true }

/-- C8 counterexample: the same validator (identity 7) registered on two
descriptors is classified once per descriptor — `_get_validator_signature`
(`fields.py` lines 509-535) is a plain function with no memoization, and
`_prep_vals` (lines 347-353) calls it once for every kept validator
occurrence of every descriptor being built — so building two int fields that
share the validator classifies it twice, not once: there is no cache keyed by
validator identity. -/
theorem c8_counterexample_classified_per_descriptor :
    (((buildField "a" Ty.int [sharedUserValidator] Val.null true false).2
        ++ (buildField "b" Ty.int [sharedUserValidator] Val.null true false).2).countP
      (fun g => g.uid == some 7)) = 2 := by
  simp [buildField, buildFieldCore, assembleField, prepVals, findValidators,
    sharedUserValidator, Ty.validateAlways, Val.isNull, getValidatorSignature,
    VFunc.isNotNone, VFunc.uid, List.countP_cons]

/-- C8 amended: signature classification happens at descriptor-build time,
exactly once per validator occurrence kept by `_prep_vals` (not once per
validator identity: an occurrence in another descriptor, or a second
occurrence in the same descriptor, is classified again), and the classified
`(signature, validator)` pairs are stored in the descriptor in order, so that
validation — which only reads these stored pairs (`_apply_validators`, lines
477-491) and never calls `_get_validator_signature`, as `Field.validate`'s
definition shows — pays no classification cost no matter how many values or
elements are validated; nothing else in the descriptor is written after
construction. -/
theorem c8_classification_once_per_occurrence (allow_none : Bool) (fs : List VFunc) :
    (prepVals allow_none fs).2
      = fs.filter (fun g => !(allow_none && g.isNotNone)) ∧
    (prepVals allow_none fs).1
      = (fs.filter (fun g => !(allow_none && g.isNotNone))).map
          (fun g => (getValidatorSignature g, g)) := by
  induction fs with
  | nil => constructor <;> rfl
  | cons g rest ih =>
    rw [prepVals]
    cases allow_none <;> cases hg : g.isNotNone <;>
      refine ⟨?_, ?_⟩ <;>
      simp [List.filter_cons, hg, ih.1, ih.2]

end Pydantic
